import Mathlib

/-!
Verification of the navigation-confinement guard of the lanflow frontend.

The embedded code:
* `ALLOWED_FLOW_PATTERN = /^\/flow\/[^/]+/` tested with `RegExp.test`
  (BuilderOnlyGuard, line 6), modelled by `allowedFlowPattern`;
* the `useBlocker` callback shared by `RouteBlocker.tsx` (lines 27-43) and
  `BuilderOnlyGuard` (lines 46-58), modelled by `useBlockerCallback`;
* the browser history stack (`entries` plus current index) with the
  primitive mutations the guards issue: `history.pushState`,
  a replace-style `navigate(p, { replace: true })`, and `navigate(-1)`
  / native back;
* the `popstate` handlers of `RouteBlocker.tsx` (lines 59-75) /
  `BuilderOnlyGuard` (lines 74-90), and of
  `use-prevent-navigation.ts` (lines 15-53), modelled as emitters of
  lists of history operations (`HistOp`);
* the corrective render effect of `BuilderOnlyGuard` (lines 28-43);
* the last-valid-route tracker of `BuilderOnlyGuard` (lines 15-25);
* the development-only diagnostic log of `RouteBlocker.tsx` (lines 46-56);
* the effect setup/cleanup pairs that register and unregister the
  `popstate` listeners.
-/

/-- Character-list core of the regex `^\/flow\/[^/]+`: the list starts with
the literal `/flow/` followed by at least one character that is not `/`.
`RegExp.test` with a start anchor and no end anchor succeeds exactly on such
prefixes. -/
def flowPatternList : List Char → Bool
  | '/' :: 'f' :: 'l' :: 'o' :: 'w' :: '/' :: c :: _ => c != '/'
  | _ => false

/-- `ALLOWED_FLOW_PATTERN.test path` for the regex `/^\/flow\/[^/]+/`
(BuilderOnlyGuard line 6). -/
def allowedFlowPattern (path : String) : Bool :=
  flowPatternList path.toList

/-- The `useBlocker` callback of `RouteBlocker.tsx` lines 27-43 (and, with
`matches := allowedFlowPattern` and `enabled := ENABLE_BUILDER_ONLY_MODE`,
of `BuilderOnlyGuard` lines 46-58): return `false` when not enabled,
otherwise block iff the current path is valid and the next one is not. -/
def useBlockerCallback (enabled : Bool) (m : String → Bool)
    (currentPath nextPath : String) : Bool :=
  if !enabled then false
  else
    let isCurrentValid := m currentPath
    let isNextValid := m nextPath
    isCurrentValid && !isNextValid

/-- The `useBlocker` callback of `BuilderOnlyGuard` lines 46-58, reading the
build-time flag `ENABLE_BUILDER_ONLY_MODE` (passed as `flag`). -/
def builderGuardBlocker (flag : Bool) (currentPath nextPath : String) : Bool :=
  if !flag then false
  else allowedFlowPattern currentPath && !(allowedFlowPattern nextPath)

/-- The browser history stack: the list of entries and the index of the
currently visible one. -/
structure History where
  entries : List String
  idx : Nat
deriving Repr, DecidableEq

/-- The path of the currently visible history entry
(`window.location.pathname`). -/
def visible (h : History) : String :=
  h.entries.getD h.idx ""

/-- `window.history.pushState(_, _, p)`: drop every entry after the current
one, append `p`, and move onto it. -/
def histPush (h : History) (p : String) : History :=
  ⟨h.entries.take (h.idx + 1) ++ [p], h.idx + 1⟩

/-- A replace-style navigation (`navigate(p, { replace: true })` /
`history.replaceState`): overwrite the current entry in place. -/
def histReplace (h : History) (p : String) : History :=
  ⟨h.entries.set h.idx p, h.idx⟩

/-- Native back / `navigate(-1)`: step back one entry (at the first entry
the browser stays put). -/
def histBack (h : History) : History :=
  ⟨h.entries, h.idx - 1⟩

/-- A primitive history mutation issued by a guard. -/
inductive HistOp where
  | push : String → HistOp
  | replace : String → HistOp
  | back : HistOp
deriving Repr, DecidableEq

/-- Apply one history operation. -/
def applyOp (h : History) : HistOp → History
  | .push p => histPush h p
  | .replace p => histReplace h p
  | .back => histBack h

/-- Apply a list of history operations in order. -/
def applyOps (h : History) (ops : List HistOp) : History :=
  ops.foldl applyOp h

/-- The `popstate` handler installed by `RouteBlocker.tsx` lines 59-75 and by
`BuilderOnlyGuard` lines 74-90, as the list of history operations it issues.
The surrounding effect returns early unless `enabled` and the captured
current path (`location.pathname` at install time) matches the pattern, so
no handler runs in that case; the handler itself corrects only when the new
path fails the pattern, by a replace-style navigation to the captured
path. -/
def guardPopOps (enabled : Bool) (m : String → Bool)
    (captured newPath : String) : List HistOp :=
  if enabled && m captured then
    if !(m newPath) then [.replace captured] else []
  else []

/-- The `popstate` handler of `use-prevent-navigation.ts` lines 15-53, as the
list of history operations it issues. The effect returns early unless
`enabled` and the tracked current path matches the pattern; on an invalid new
path the handler first calls `window.history.pushState(null, '', currentPath)`
(line 37) and then `navigate(currentPath, { replace: true })` (line 38). -/
def preventNavPopOps (enabled : Bool) (m : String → Bool)
    (currentPath newPath : String) : List HistOp :=
  if enabled && m currentPath then
    if !(m newPath) then [.push currentPath, .replace currentPath]
    else []
  else []

/-- The corrective render effect of `BuilderOnlyGuard` lines 28-43, as the
list of history operations it issues: when enabled and the current path is
invalid, a replace-style navigation to the last valid flow route if one was
recorded, else `navigate(-1)`. -/
def correctionEffectOps (enabled : Bool) (m : String → Bool)
    (lastValid : Option String) (currentPath : String) : List HistOp :=
  if enabled && !(m currentPath) then
    match lastValid with
    | some p => [.replace p]
    | none => [.back]
  else []

/-- One observation step of the last-valid-route tracker
(`BuilderOnlyGuard` lines 21-25): record the path iff it matches. -/
def observe (m : String → Bool) (lastValid : Option String)
    (loc : String) : Option String :=
  if m loc then some loc else lastValid

/-- The tracker value after a whole session of observed locations, starting
from the initial `useRef(null)`. -/
def trackLast (m : String → Bool) (locs : List String) : Option String :=
  locs.foldl (observe m) none

/-- Modelled from the spec: the most recently observed location satisfying
the matcher, or none. Used as the specification the tracker is compared
against. -/
def specLastMatching (m : String → Bool) : List String → Option String
  | [] => none
  | l :: ls =>
    match specLastMatching m ls with
    | some x => some x
    | none => if m l then some l else none

/-- One blocked-back round against the replace-only `popstate` handler of
`RouteBlocker` / `BuilderOnlyGuard`: the user presses back, then the handler
runs on the resulting location. -/
def blockedBackStep (enabled : Bool) (m : String → Bool)
    (captured : String) (h : History) : History :=
  let h1 := histBack h
  applyOps h1 (guardPopOps enabled m captured (visible h1))

/-- One blocked-back round against the `use-prevent-navigation.ts` handler:
the user presses back, then the handler runs on the resulting location. -/
def preventNavBackStep (enabled : Bool) (m : String → Bool)
    (currentPath : String) (h : History) : History :=
  let h1 := histBack h
  applyOps h1 (preventNavPopOps enabled m currentPath (visible h1))

/-- The per-render outcome of `RouteBlocker.tsx`: the veto decision of the
`useBlocker` callback (lines 27-43) together with the diagnostic record the
development-logging effect (lines 46-56) emits, `none` when nothing is
logged. The log fires only when the blocker is in the blocked state and
`process.env.NODE_ENV === "development"`. -/
def routeBlockerStep (devMode : Bool) (enabled : Bool)
    (m : String → Bool) (currentPath nextPath : String) :
    Bool × Option (String × String) :=
  let d := useBlockerCallback enabled m currentPath nextPath
  (d, if d && devMode then some (nextPath, currentPath) else none)

/-- Setup half of the `popstate` effect of `RouteBlocker.tsx` lines 59-75 /
`BuilderOnlyGuard` lines 74-90: when enabled and the current path matches,
register the handler (identified by `hid`) with
`window.addEventListener("popstate", ...)` and remember it for cleanup;
otherwise the effect returns early and registers nothing. -/
def popEffectSetup (enabled : Bool) (m : String → Bool)
    (currentPath : String) (hid : Nat) (handlers : List Nat) :
    List Nat × Option Nat :=
  if enabled && m currentPath then (handlers ++ [hid], some hid)
  else (handlers, none)

/-- Cleanup half of the same effect:
`window.removeEventListener("popstate", handler)` for the handler the setup
registered, nothing when it registered none. -/
def popEffectCleanup (handlers : List Nat) (installed : Option Nat) :
    List Nat :=
  match installed with
  | some hid => handlers.erase hid
  | none => handlers

/-! ## Helper lemmas -/

/-- A regex anchored only at the start is closed under extensions of the
input. -/
theorem flowPatternList_append (l s : List Char)
    (hl : flowPatternList l = true) : flowPatternList (l ++ s) = true := by
  unfold flowPatternList at hl
  split at hl
  · rename_i c rest
    simpa [flowPatternList] using hl
  · exact absurd hl (by simp)

theorem getD_set_self (l : List String) (i : Nat) (a : String)
    (hi : i < l.length) : (l.set i a).getD i "" = a := by
  induction l generalizing i with
  | nil => simp at hi
  | cons x xs ih =>
    cases i with
    | zero => rfl
    | succ j =>
      simp only [List.set, List.getD_cons_succ]
      exact ih j (by simpa using hi)

theorem getD_set_ne (l : List String) (i j : Nat) (a : String)
    (hij : i ≠ j) : (l.set i a).getD j "" = l.getD j "" := by
  induction l generalizing i j with
  | nil => simp [List.set]
  | cons x xs ih =>
    cases i with
    | zero =>
      cases j with
      | zero => exact absurd rfl hij
      | succ je => simp [List.set, List.getD_cons_succ]
    | succ ie =>
      cases j with
      | zero => simp [List.set, List.getD_cons_zero]
      | succ je =>
        simp only [List.set, List.getD_cons_succ]
        exact ih ie je (fun e => hij (by rw [e]))

theorem getD_append_left (l l' : List String) (i : Nat)
    (hi : i < l.length) : (l ++ l').getD i "" = l.getD i "" := by
  induction l generalizing i with
  | nil => simp at hi
  | cons x xs ih =>
    cases i with
    | zero => rfl
    | succ j =>
      simp only [List.cons_append, List.getD_cons_succ]
      exact ih j (by simpa using hi)

theorem getD_take (l : List String) (n i : Nat) (hi : i < n) :
    (l.take n).getD i "" = l.getD i "" := by
  induction l generalizing n i with
  | nil => simp
  | cons x xs ih =>
    cases n with
    | zero => exact absurd hi (Nat.not_lt_zero i)
    | succ nn =>
      cases i with
      | zero => rfl
      | succ j =>
        simp only [List.take_succ_cons, List.getD_cons_succ]
        exact ih nn j (Nat.lt_of_succ_lt_succ hi)

/-- The fold computing the tracker equals the specification recursion,
relative to any starting accumulator. -/
theorem foldl_observe (m : String → Bool) (ls : List String) :
    ∀ acc : Option String,
      ls.foldl (observe m) acc =
        match specLastMatching m ls with
        | some x => some x
        | none => acc := by
  induction ls with
  | nil => intro acc; rfl
  | cons l ls ih =>
    intro acc
    rw [List.foldl_cons, ih (observe m acc l)]
    cases hsp : specLastMatching m ls with
    | some x => simp [specLastMatching, hsp]
    | none =>
      cases hm : m l <;> simp [specLastMatching, hsp, observe, hm]

/-- A populated tracker stays populated under further observations. -/
theorem foldl_observe_ne_none (m : String → Bool) (ls : List String)
    (acc : Option String) (hacc : acc ≠ none) :
    ls.foldl (observe m) acc ≠ none := by
  rw [foldl_observe]
  cases specLastMatching m ls <;> simp [hacc]

/-! ## Theorems -/

/-- C1: the in-app veto decision is `true` iff `enabled ∧ matches(A) ∧
¬matches(B)`; with `enabled = false` it is `false` for all `A`, `B`. Both the
generic `RouteBlocker` callback and the `BuilderOnlyGuard` instance satisfy
it. -/
theorem veto_iff (e : Bool) (m : String → Bool) (a b : String) :
    (useBlockerCallback e m a b = true ↔
      (e = true ∧ m a = true ∧ m b = false)) ∧
    (e = false → useBlockerCallback e m a b = false) ∧
    builderGuardBlocker e a b = useBlockerCallback e allowedFlowPattern a b := by
  refine ⟨?_, ?_, ?_⟩
  · unfold useBlockerCallback
    cases e <;> cases hma : m a <;> cases hmb : m b <;>
      simp [hma, hmb]
  · intro he
    subst he
    simp [useBlockerCallback]
  · unfold builderGuardBlocker useBlockerCallback
    cases e <;> simp

/-- Witness for C1 at concrete inputs. -/
theorem veto_iff_witness :
    useBlockerCallback false allowedFlowPattern "/flow/abc" "/settings" =
      false ∧
    useBlockerCallback true allowedFlowPattern "/flow/abc" "/settings" =
      true :=
  ⟨(veto_iff false allowedFlowPattern "/flow/abc" "/settings").2.1 rfl,
    (veto_iff true allowedFlowPattern "/flow/abc" "/settings").1.mpr
      ⟨rfl, by decide, by decide⟩⟩

/-- C6: the matcher accepts `/flow/<id>` for a non-empty identifier and
anything deeper under it, and rejects the bare scope root `/flow/` and the
sibling `/flows`. -/
theorem pattern_no_partial_matches :
    allowedFlowPattern "/flow/abc" = true ∧
    (∀ s : String, allowedFlowPattern ("/flow/abc" ++ s) = true) ∧
    allowedFlowPattern "/flow/" = false ∧
    allowedFlowPattern "/flows" = false := by
  refine ⟨by decide, ?_, by decide, by decide⟩
  intro s
  unfold allowedFlowPattern
  rw [show ("/flow/abc" ++ s).toList = "/flow/abc".toList ++ s.toList by
    simp [String.toList, String.data_append]]
  exact flowPatternList_append _ _ (by decide)

/-- C4 (counterexample): the matcher does not exclude deeper nested
variants — it returns `true` on `/flow/abc/view`, because the regex
`^\/flow\/[^/]+` has no end anchor and `RegExp.test` succeeds on any string
whose prefix matches. -/
theorem pattern_deeper_variant_cex :
    allowedFlowPattern "/flow/abc/view" = true := by decide

/-- C4 (amended): the confinement pattern anchors only a prefix, so every
extension of a matched path is matched too; deeper nested variants under an
identifier, such as `/flow/<id>/view`, are therefore included, not
excluded. -/
theorem pattern_extension_closed (p s : String)
    (hp : allowedFlowPattern p = true) :
    allowedFlowPattern (p ++ s) = true := by
  unfold allowedFlowPattern at hp ⊢
  rw [show (p ++ s).toList = p.toList ++ s.toList by
    simp [String.toList, String.data_append]]
  exact flowPatternList_append _ _ hp

/-- Witness for C4's amended theorem at a concrete input. -/
theorem pattern_extension_closed_witness :
    allowedFlowPattern ("/flow/abc" ++ "/view") = true :=
  pattern_extension_closed "/flow/abc" "/view" (by decide)

/-- C5: the last-valid-location tracker is updated only by matching
observations, equals the most recently observed matching location (none when
no matching location was ever observed), and once populated never becomes
none again under further observations. -/
theorem tracker_last_valid (m : String → Bool) (lv : Option String)
    (l : String) (locs more : List String) :
    (m l = false → observe m lv l = lv) ∧
    trackLast m locs = specLastMatching m locs ∧
    (trackLast m locs ≠ none → trackLast m (locs ++ more) ≠ none) := by
  refine ⟨?_, ?_, ?_⟩
  · intro hm
    simp [observe, hm]
  · show locs.foldl (observe m) none = _
    rw [foldl_observe]
    cases specLastMatching m locs <;> rfl
  · intro hne
    show (locs ++ more).foldl (observe m) none ≠ none
    rw [List.foldl_append]
    exact foldl_observe_ne_none m more _ hne

/-- Witness for C5 at concrete inputs. -/
theorem tracker_last_valid_witness :
    observe allowedFlowPattern (some "/flow/a") "/settings" =
      some "/flow/a" ∧
    trackLast allowedFlowPattern ["/home", "/flow/a"] =
      specLastMatching allowedFlowPattern ["/home", "/flow/a"] ∧
    trackLast allowedFlowPattern (["/home", "/flow/a"] ++ ["/settings"]) ≠
      none := by
  obtain ⟨h1, h2, h3⟩ :=
    tracker_last_valid allowedFlowPattern (some "/flow/a") "/settings"
      ["/home", "/flow/a"] ["/settings"]
  exact ⟨h1 (by decide), h2, h3 (by decide)⟩

/-- C2: on an out-of-band arrival at an invalid location with the guard
enabled, the corrective effect issues exactly one replace-style navigation
to the last valid location when one was recorded, and the visible location
becomes that target; when none was recorded it issues exactly one
back-step, ending one entry back in the history. -/
theorem out_of_band_correction (e : Bool) (m : String → Bool)
    (lv : Option String) (h : History)
    (he : e = true) (hm : m (visible h) = false)
    (hidx : h.idx < h.entries.length) :
    (∀ p, lv = some p →
      correctionEffectOps e m lv (visible h) = [.replace p] ∧
      visible (applyOps h (correctionEffectOps e m lv (visible h))) = p) ∧
    (lv = none →
      correctionEffectOps e m lv (visible h) = [.back] ∧
      (applyOps h (correctionEffectOps e m lv (visible h))).idx =
        h.idx - 1 ∧
      visible (applyOps h (correctionEffectOps e m lv (visible h))) =
        h.entries.getD (h.idx - 1) "") := by
  subst he
  constructor
  · rintro p rfl
    have hops : correctionEffectOps true m (some p) (visible h) =
        [.replace p] := by
      simp [correctionEffectOps, hm]
    refine ⟨hops, ?_⟩
    rw [hops]
    show (h.entries.set h.idx p).getD h.idx "" = p
    exact getD_set_self _ _ _ hidx
  · rintro rfl
    have hops : correctionEffectOps true m none (visible h) = [.back] := by
      simp [correctionEffectOps, hm]
    rw [hops]
    exact ⟨rfl, rfl, rfl⟩

/-- Witness for C2 at a concrete history, in both the recorded and the
unrecorded case. -/
theorem out_of_band_correction_witness :
    visible (applyOps ⟨["/flow/abc", "/settings"], 1⟩
      (correctionEffectOps true allowedFlowPattern (some "/flow/abc")
        (visible ⟨["/flow/abc", "/settings"], 1⟩))) = "/flow/abc" ∧
    (applyOps ⟨["/flow/abc", "/settings"], 1⟩
      (correctionEffectOps true allowedFlowPattern none
        (visible ⟨["/flow/abc", "/settings"], 1⟩))).idx = 0 := by
  refine ⟨((out_of_band_correction true allowedFlowPattern (some "/flow/abc")
      ⟨["/flow/abc", "/settings"], 1⟩ rfl (by decide) (by decide)).1
      "/flow/abc" rfl).2, ?_⟩
  exact ((out_of_band_correction true allowedFlowPattern none
      ⟨["/flow/abc", "/settings"], 1⟩ rfl (by decide) (by decide)).2
      rfl).2.1

/-- C7: when the guard is disabled or the out-of-band arrival matches the
pattern, neither the `popstate` handler nor the corrective effect issues any
history operation, and the history (hence the visible location) is left
unchanged. -/
theorem accept_disabled_or_valid (e : Bool) (m : String → Bool)
    (captured : String) (lv : Option String) (h : History)
    (hc : e = false ∨ m (visible h) = true) :
    guardPopOps e m captured (visible h) = [] ∧
    correctionEffectOps e m lv (visible h) = [] ∧
    applyOps h (guardPopOps e m captured (visible h)) = h ∧
    applyOps h (correctionEffectOps e m lv (visible h)) = h := by
  have hops : guardPopOps e m captured (visible h) = [] ∧
      correctionEffectOps e m lv (visible h) = [] := by
    rcases hc with rfl | hv
    · simp [guardPopOps, correctionEffectOps]
    · cases e <;> cases hmc : m captured <;>
        simp [guardPopOps, correctionEffectOps, hv, hmc]
  exact ⟨hops.1, hops.2, by rw [hops.1]; rfl, by rw [hops.2]; rfl⟩

/-- Witness for C7 with the guard disabled at a concrete history. -/
theorem accept_disabled_or_valid_witness :
    guardPopOps false allowedFlowPattern "/flow/abc"
      (visible ⟨["/flow/abc", "/home"], 1⟩) = [] ∧
    applyOps ⟨["/flow/abc", "/home"], 1⟩
      (correctionEffectOps false allowedFlowPattern none
        (visible ⟨["/flow/abc", "/home"], 1⟩)) =
      ⟨["/flow/abc", "/home"], 1⟩ := by
  obtain ⟨h1, h2, h3, h4⟩ := accept_disabled_or_valid false
    allowedFlowPattern "/flow/abc" none ⟨["/flow/abc", "/home"], 1⟩
    (Or.inl rfl)
  exact ⟨h1, h4⟩

/-- C8: the development log never influences the veto decision — the
decision is identical across build modes — and the log is absent outside a
development build and absent on non-blocked transitions. -/
theorem dev_log_no_interference (dm1 dm2 e : Bool) (m : String → Bool)
    (a b : String) :
    (routeBlockerStep dm1 e m a b).1 = (routeBlockerStep dm2 e m a b).1 ∧
    (routeBlockerStep false e m a b).2 = none ∧
    (∀ dm : Bool, (routeBlockerStep dm e m a b).1 = false →
      (routeBlockerStep dm e m a b).2 = none) := by
  refine ⟨rfl, by simp [routeBlockerStep], ?_⟩
  intro dm hd
  simp only [routeBlockerStep] at hd ⊢
  simp [hd]

/-- Witness for C8 at concrete inputs. -/
theorem dev_log_no_interference_witness :
    (routeBlockerStep true false allowedFlowPattern "/flow/abc" "/home").1 =
      (routeBlockerStep false false allowedFlowPattern "/flow/abc"
        "/home").1 ∧
    (routeBlockerStep true false allowedFlowPattern "/flow/abc"
      "/home").2 = none := by
  obtain ⟨h1, h2, h3⟩ := dev_log_no_interference true false false
    allowedFlowPattern "/flow/abc" "/home"
  exact ⟨h1, h3 true (by decide)⟩

/-- C9: unmounting the guard releases exactly the `popstate` subscription
its effect installed: running the cleanup after the setup restores the host
listener list, and no handler of the guard remains registered. -/
theorem teardown_releases_subscription (e : Bool) (m : String → Bool)
    (cur : String) (hid : Nat) (hs : List Nat) (hnotin : hid ∉ hs) :
    popEffectCleanup (popEffectSetup e m cur hid hs).1
      (popEffectSetup e m cur hid hs).2 = hs ∧
    hid ∉ popEffectCleanup (popEffectSetup e m cur hid hs).1
      (popEffectSetup e m cur hid hs).2 := by
  have herase : (hs ++ [hid]).erase hid = hs := by
    rw [List.erase_append_right _ hnotin]
    simp
  constructor
  · cases e <;> cases hmc : m cur <;>
      simp [popEffectSetup, popEffectCleanup, hmc, herase]
  · cases e <;> cases hmc : m cur <;>
      simp [popEffectSetup, popEffectCleanup, hmc, herase, hnotin]

/-- Witness for C9 at concrete inputs. -/
theorem teardown_releases_subscription_witness :
    popEffectCleanup
      (popEffectSetup true allowedFlowPattern "/flow/abc" 0 [1]).1
      (popEffectSetup true allowedFlowPattern "/flow/abc" 0 [1]).2 = [1] :=
  (teardown_releases_subscription true allowedFlowPattern "/flow/abc" 0 [1]
    (by decide)).1

/-- C3 (counterexample): not every corrective navigation uses the
non-growing replace form. On a blocked out-of-band attempt the
`use-prevent-navigation.ts` handler first calls
`window.history.pushState(null, '', currentPath)` — a push — before the
replace-style `navigate`: at the concrete blocked input below the emitted
operations contain a push. -/
theorem corrective_navigation_push_cex :
    preventNavPopOps true allowedFlowPattern "/flow/abc" "/home" =
      [HistOp.push "/flow/abc", HistOp.replace "/flow/abc"] := by decide

/-- One blocked-back round against the replace-only guard handler keeps the
history length, stays in range, ends on the captured location, and keeps
every earlier entry invalid. -/
theorem blockedBackStep_inv (m : String → Bool) (captured : String)
    (s : History) (hm : m captured = true)
    (hidx : s.idx < s.entries.length) (hvis : visible s = captured)
    (hlow : ∀ i, i < s.idx → m (s.entries.getD i "") = false) :
    (blockedBackStep true m captured s).entries.length =
      s.entries.length ∧
    (blockedBackStep true m captured s).idx <
      (blockedBackStep true m captured s).entries.length ∧
    visible (blockedBackStep true m captured s) = captured ∧
    ∀ i, i < (blockedBackStep true m captured s).idx →
      m ((blockedBackStep true m captured s).entries.getD i "") = false := by
  obtain ⟨E, i⟩ := s
  cases i with
  | zero =>
    have hops : guardPopOps true m captured (visible ⟨E, 0⟩) = [] := by
      rw [hvis]
      simp [guardPopOps, hm]
    have hres : blockedBackStep true m captured ⟨E, 0⟩ = ⟨E, 0⟩ := by
      show applyOps ⟨E, 0⟩ (guardPopOps true m captured (visible ⟨E, 0⟩)) =
        (⟨E, 0⟩ : History)
      rw [hops]
      rfl
    rw [hres]
    exact ⟨rfl, hidx, hvis, hlow⟩
  | succ k =>
    have hk : k < E.length := Nat.lt_of_succ_lt hidx
    have hkinv : m (E.getD k "") = false := hlow k (Nat.lt_succ_self k)
    have hops : guardPopOps true m captured (visible ⟨E, k⟩) =
        [.replace captured] := by
      show guardPopOps true m captured (E.getD k "") = _
      simp only [guardPopOps, hm, hkinv]
      simp
    have hres : blockedBackStep true m captured ⟨E, k + 1⟩ =
        ⟨E.set k captured, k⟩ := by
      show applyOps ⟨E, k⟩ (guardPopOps true m captured (visible ⟨E, k⟩)) = _
      rw [hops]
      rfl
    rw [hres]
    refine ⟨by simp, ?_, ?_, ?_⟩
    · show k < (E.set k captured).length
      simpa using hk
    · show (E.set k captured).getD k "" = captured
      exact getD_set_self _ _ _ hk
    · intro i hi
      have hik : i < k := hi
      show m ((E.set k captured).getD i "") = false
      rw [getD_set_ne E k i captured (Nat.ne_of_gt hik)]
      exact hlow i (Nat.lt_trans hik (Nat.lt_succ_self k))

/-- The guard-handler invariant carried through any number of blocked-back
rounds. -/
theorem blockedBackStep_iterate_inv (m : String → Bool) (captured : String)
    (h : History) (hm : m captured = true)
    (hidx : h.idx < h.entries.length) (hvis : visible h = captured)
    (hlow : ∀ i, i < h.idx → m (h.entries.getD i "") = false) :
    ∀ N : Nat,
      ((blockedBackStep true m captured)^[N] h).entries.length =
        h.entries.length ∧
      ((blockedBackStep true m captured)^[N] h).idx <
        ((blockedBackStep true m captured)^[N] h).entries.length ∧
      visible ((blockedBackStep true m captured)^[N] h) = captured ∧
      ∀ i, i < ((blockedBackStep true m captured)^[N] h).idx →
        m (((blockedBackStep true m captured)^[N] h).entries.getD i "") =
          false := by
  intro N
  induction N with
  | zero => exact ⟨rfl, hidx, hvis, hlow⟩
  | succ n ih =>
    obtain ⟨ihlen, ihidx, ihvis, ihlow⟩ := ih
    rw [Function.iterate_succ_apply']
    obtain ⟨slen, sidx, svis, slow⟩ := blockedBackStep_inv m captured
      ((blockedBackStep true m captured)^[n] h) hm ihidx ihvis ihlow
    exact ⟨slen.trans ihlen, sidx, svis, slow⟩

/-- One blocked-back round against the `use-prevent-navigation.ts` handler
never grows the history, stays in range, ends on the tracked current
location, and keeps every earlier entry invalid. -/
theorem preventNavBackStep_inv (m : String → Bool) (cur : String)
    (s : History) (hm : m cur = true)
    (hidx : s.idx < s.entries.length) (hvis : visible s = cur)
    (hlow : ∀ i, i < s.idx → m (s.entries.getD i "") = false) :
    (preventNavBackStep true m cur s).entries.length ≤
      s.entries.length ∧
    (preventNavBackStep true m cur s).idx <
      (preventNavBackStep true m cur s).entries.length ∧
    visible (preventNavBackStep true m cur s) = cur ∧
    ∀ i, i < (preventNavBackStep true m cur s).idx →
      m ((preventNavBackStep true m cur s).entries.getD i "") = false := by
  obtain ⟨E, i⟩ := s
  cases i with
  | zero =>
    have hops : preventNavPopOps true m cur (visible ⟨E, 0⟩) = [] := by
      rw [hvis]
      simp [preventNavPopOps, hm]
    have hres : preventNavBackStep true m cur ⟨E, 0⟩ = ⟨E, 0⟩ := by
      show applyOps ⟨E, 0⟩ (preventNavPopOps true m cur (visible ⟨E, 0⟩)) =
        (⟨E, 0⟩ : History)
      rw [hops]
      rfl
    rw [hres]
    exact ⟨Nat.le_refl _, hidx, hvis, hlow⟩
  | succ k =>
    have hk1 : k + 1 < E.length := hidx
    have hkinv : m (E.getD k "") = false := hlow k (Nat.lt_succ_self k)
    have hops : preventNavPopOps true m cur (visible ⟨E, k⟩) =
        [.push cur, .replace cur] := by
      show preventNavPopOps true m cur (E.getD k "") = _
      simp only [preventNavPopOps, hm, hkinv]
      simp
    have htlen : (E.take (k + 1)).length = k + 1 := by
      rw [List.length_take]
      omega
    have hres : preventNavBackStep true m cur ⟨E, k + 1⟩ =
        ⟨(E.take (k + 1) ++ [cur]).set (k + 1) cur, k + 1⟩ := by
      show applyOps ⟨E, k⟩ (preventNavPopOps true m cur (visible ⟨E, k⟩)) = _
      rw [hops]
      rfl
    have hlen2 : ((E.take (k + 1) ++ [cur]).set (k + 1) cur).length =
        k + 2 := by
      simp [List.length_set, List.length_append, htlen]
    rw [hres]
    refine ⟨?_, ?_, ?_, ?_⟩
    · show ((E.take (k + 1) ++ [cur]).set (k + 1) cur).length ≤ E.length
      rw [hlen2]
      omega
    · show k + 1 < ((E.take (k + 1) ++ [cur]).set (k + 1) cur).length
      rw [hlen2]
      omega
    · show ((E.take (k + 1) ++ [cur]).set (k + 1) cur).getD (k + 1) "" = cur
      refine getD_set_self _ _ _ ?_
      rw [List.length_append, htlen, List.length_singleton]
      omega
    · intro i hi
      have hik : i < k + 1 := hi
      show m (((E.take (k + 1) ++ [cur]).set (k + 1) cur).getD i "") = false
      rw [getD_set_ne _ _ _ _ (Nat.ne_of_gt hik)]
      rw [getD_append_left _ _ _ (by rw [htlen]; exact hik)]
      rw [getD_take _ _ _ hik]
      exact hlow i hik

/-- The `use-prevent-navigation.ts` invariant carried through any number of
blocked-back rounds. -/
theorem preventNavBackStep_iterate_inv (m : String → Bool) (cur : String)
    (h : History) (hm : m cur = true)
    (hidx : h.idx < h.entries.length) (hvis : visible h = cur)
    (hlow : ∀ i, i < h.idx → m (h.entries.getD i "") = false) :
    ∀ N : Nat,
      ((preventNavBackStep true m cur)^[N] h).entries.length ≤
        h.entries.length ∧
      ((preventNavBackStep true m cur)^[N] h).idx <
        ((preventNavBackStep true m cur)^[N] h).entries.length ∧
      visible ((preventNavBackStep true m cur)^[N] h) = cur ∧
      ∀ i, i < ((preventNavBackStep true m cur)^[N] h).idx →
        m (((preventNavBackStep true m cur)^[N] h).entries.getD i "") =
          false := by
  intro N
  induction N with
  | zero => exact ⟨Nat.le_refl _, hidx, hvis, hlow⟩
  | succ n ih =>
    obtain ⟨ihlen, ihidx, ihvis, ihlow⟩ := ih
    rw [Function.iterate_succ_apply']
    obtain ⟨slen, sidx, svis, slow⟩ := preventNavBackStep_inv m cur
      ((preventNavBackStep true m cur)^[n] h) hm ihidx ihvis ihlow
    exact ⟨slen.trans ihlen, sidx, svis, slow⟩

/-- A concrete confined session used to witness the blocked-back bound: two
invalid entries below the current valid flow route. -/
def demoHist : History :=
  ⟨["/", "/home", "/flow/abc"], 2⟩

/-- C3 (amended): the `RouteBlocker` / `BuilderOnlyGuard` handler corrects
with replace only, while the `use-prevent-navigation.ts` handler re-pushes
the tracked path before replacing; in both cases, for every N ≥ 1, N
consecutive blocked out-of-band back attempts from a confined state end at
the same single corrected location and never grow the history stack. -/
theorem blocked_back_attempts_bounded (m : String → Bool)
    (captured : String) (h : History) (N : Nat) (hm : m captured = true)
    (hidx : h.idx < h.entries.length) (hvis : visible h = captured)
    (hlow : ∀ i, i < h.idx → m (h.entries.getD i "") = false)
    (_hN : 1 ≤ N) :
    (((blockedBackStep true m captured)^[N] h).entries.length =
        h.entries.length ∧
      visible ((blockedBackStep true m captured)^[N] h) = captured) ∧
    (((preventNavBackStep true m captured)^[N] h).entries.length ≤
        h.entries.length ∧
      visible ((preventNavBackStep true m captured)^[N] h) = captured) := by
  obtain ⟨l1, _, v1, _⟩ :=
    blockedBackStep_iterate_inv m captured h hm hidx hvis hlow N
  obtain ⟨l2, _, v2, _⟩ :=
    preventNavBackStep_iterate_inv m captured h hm hidx hvis hlow N
  exact ⟨⟨l1, v1⟩, ⟨l2, v2⟩⟩

/-- Witness for C3's amended theorem: three consecutive blocked back
attempts on a concrete three-entry history. -/
theorem blocked_back_attempts_bounded_witness :
    1 ≤ 3 ∧
    ((((blockedBackStep true allowedFlowPattern "/flow/abc")^[3]
        demoHist).entries.length = demoHist.entries.length ∧
      visible ((blockedBackStep true allowedFlowPattern "/flow/abc")^[3]
        demoHist) = "/flow/abc") ∧
     (((preventNavBackStep true allowedFlowPattern "/flow/abc")^[3]
        demoHist).entries.length ≤ demoHist.entries.length ∧
      visible ((preventNavBackStep true allowedFlowPattern "/flow/abc")^[3]
        demoHist) = "/flow/abc")) :=
  ⟨by decide,
    blocked_back_attempts_bounded allowedFlowPattern "/flow/abc" demoHist 3
      (by decide) (by decide) (by decide) (by decide) (by decide)⟩

/-- C10: when the captured current path does not match the pattern, the
`popstate` handlers of `RouteBlocker` and `usePreventNavigation` are not
installed, so an out-of-band navigation to any location is accepted
unchanged: no history operation is issued and the history is left as is. -/
theorem handler_not_installed_when_invalid (e : Bool) (m : String → Bool)
    (captured newPath : String) (h : History)
    (hc : m captured = false) :
    guardPopOps e m captured newPath = [] ∧
    preventNavPopOps e m captured newPath = [] ∧
    applyOps h (guardPopOps e m captured newPath) = h ∧
    applyOps h (preventNavPopOps e m captured newPath) = h := by
  have h1 : guardPopOps e m captured newPath = [] := by
    simp [guardPopOps, hc]
  have h2 : preventNavPopOps e m captured newPath = [] := by
    simp [preventNavPopOps, hc]
  exact ⟨h1, h2, by rw [h1]; rfl, by rw [h2]; rfl⟩

/-- Witness for C10 at concrete inputs: a session started on `/settings`
accepts an out-of-band move to `/home` untouched, even with the guard
enabled. -/
theorem handler_not_installed_when_invalid_witness :
    preventNavPopOps true allowedFlowPattern "/settings" "/home" = [] ∧
    applyOps ⟨["/settings", "/home"], 1⟩
      (guardPopOps true allowedFlowPattern "/settings" "/home") =
      ⟨["/settings", "/home"], 1⟩ := by
  obtain ⟨h1, h2, h3, h4⟩ := handler_not_installed_when_invalid true
    allowedFlowPattern "/settings" "/home" ⟨["/settings", "/home"], 1⟩
    (by decide)
  exact ⟨h2, h3⟩
